import Mathlib

/-!
Verification of the data-ingestion core of the PPA_result dashboard
(`streamlit-gsheets.py`): the `DataCache` persistence layer, the
`DataLoader` normalization pipeline, and the `load_data` orchestration.

A note on the source file: the class `DataLoader` defines `__init__`,
`_format_date`, `load_data` and `_process_numeric_columns` twice.  Python
executes a class body top to bottom, so the second group of definitions
(source lines 372-458) shadows the first (lines 169-356); the shadowed
first group (`_fetch_from_sheets`, `_validate_dataframe`, the validating
`load_data`, the richer `_process_numeric_columns`) is dead code except
for `_validate_dataframe`, which remains an attribute but is never called
by the effective methods.  The definitions below embed the *effective*
(second) methods, and additionally embed the shadowed variants where the
contrast matters, under a `_v1` suffix.

Machine-level conventions of the embedding: timestamps are natural
numbers counting seconds (`timedelta(days=1)` is 86400); Python floats
are modeled exactly by the decimal they were parsed from (`Deci`, with
`Deci.toRat` for the numeric value); a pandas `NaN`/`NaT`/`None` cell is
the single missing value `Cell.vNone`; a raised-and-caught exception
becomes an `Option`/`Except` failure value.
-/

/-- A `datetime.date`: plain year/month/day fields. -/
structure DateD where
  year : Nat
  month : Nat
  day : Nat
deriving DecidableEq, Repr

/-- Gregorian leap-year rule, as implemented by `datetime`/`pandas`. -/
def isLeapYear (y : Nat) : Bool :=
  (y % 4 == 0 && y % 100 != 0) || y % 400 == 0

/-- Number of days in a month (0 for an out-of-range month index). -/
def daysInMonth (y m : Nat) : Nat :=
  match m with
  | 1 | 3 | 5 | 7 | 8 | 10 | 12 => 31
  | 4 | 6 | 9 | 11 => 30
  | 2 => if isLeapYear y then 29 else 28
  | _ => 0

/-- The calendar validity that `datetime.date` enforces (year 1..9999,
month 1..12, day within the month). -/
def isValidDate (dt : DateD) : Bool :=
  decide (1 ≤ dt.year ∧ dt.year ≤ 9999 ∧ 1 ≤ dt.month ∧ dt.month ≤ 12 ∧
          1 ≤ dt.day ∧ dt.day ≤ daysInMonth dt.year dt.month)

/-- Numeric value of an ASCII digit character. -/
def charDigit (c : Char) : Nat := c.toNat - 48

/-- Most-significant-digit-first accumulation of a run of digit chars. -/
def digitsVal (l : List Char) : Nat :=
  l.foldl (fun a c => a * 10 + charDigit c) 0

/-- Parse a nonempty all-digit character run as a natural number. -/
def readNatChars (l : List Char) : Option Nat :=
  if l.isEmpty then none
  else if l.all Char.isDigit then some (digitsVal l) else none

/-- Little-endian base-10 digits of `n`, computed with structural fuel
so that the kernel can evaluate it (`Nat.digits` is well-founded and
does not reduce). -/
def natDigitsRev (fuel : Nat) (n : Nat) : List Nat :=
  match fuel with
  | 0 => []
  | fuel + 1 => if n = 0 then [] else n % 10 :: natDigitsRev fuel (n / 10)

theorem natDigitsRev_lt (fuel : Nat) : ∀ n, ∀ d ∈ natDigitsRev fuel n, d < 10 := by
  induction fuel with
  | zero => intro n d hd; simp [natDigitsRev] at hd
  | succ fuel ih =>
      intro n d hd
      unfold natDigitsRev at hd
      by_cases hn : n = 0
      · simp [hn] at hd
      · rw [if_neg hn] at hd
        rcases List.mem_cons.mp hd with h | h
        · subst h; exact Nat.mod_lt _ (by norm_num)
        · exact ih _ _ h

theorem ofDigits_natDigitsRev (fuel : Nat) : ∀ n, n ≤ fuel →
    Nat.ofDigits 10 (natDigitsRev fuel n) = n := by
  induction fuel with
  | zero =>
      intro n hn
      have : n = 0 := Nat.le_zero.mp hn
      simp [this, natDigitsRev, Nat.ofDigits_nil]
  | succ fuel ih =>
      intro n hn
      unfold natDigitsRev
      by_cases hz : n = 0
      · simp [hz, Nat.ofDigits_nil]
      · rw [if_neg hz, Nat.ofDigits_cons,
          ih (n / 10) (by
            have : n / 10 < n := Nat.div_lt_self (Nat.pos_of_ne_zero hz) (by norm_num)
            omega)]
        omega

/-- Decimal rendering of `n`, zero-padded on the left to width `w`
(the shape produced by `date.isoformat`, e.g. `%04d`/`%02d`). -/
def padChars (w n : Nat) : List Char :=
  List.replicate (w - (natDigitsRev n n).length) '0' ++
    ((natDigitsRev n n).reverse.map Nat.digitChar)

theorem digitChar_isDigit {d : Nat} (h : d < 10) :
    (Nat.digitChar d).isDigit = true := by
  interval_cases d <;> decide

theorem digitChar_val {d : Nat} (h : d < 10) : charDigit (Nat.digitChar d) = d := by
  interval_cases d <;> decide

theorem padChars_digit {w n : Nat} {c : Char} (hc : c ∈ padChars w n) :
    c.isDigit = true := by
  rcases List.mem_append.mp hc with h | h
  · rw [List.eq_of_mem_replicate h]; decide
  · obtain ⟨d, hd, rfl⟩ := List.mem_map.mp h
    exact digitChar_isDigit (natDigitsRev_lt n n d (List.mem_reverse.mp hd))

theorem foldl_digits_eq (l : List Nat) (a : Nat) :
    l.reverse.foldl (fun acc d => acc * 10 + d) a =
      a * 10 ^ l.length + Nat.ofDigits 10 l := by
  induction l generalizing a with
  | nil => simp [Nat.ofDigits_nil]
  | cons d l ih =>
      rw [List.reverse_cons, List.foldl_append, ih]
      simp only [List.foldl_cons, List.foldl_nil, List.length_cons, Nat.ofDigits_cons]
      ring

theorem foldl_map_digitChar (l : List Nat) (hl : ∀ d ∈ l, d < 10) (a : Nat) :
    (l.map Nat.digitChar).foldl (fun acc c => acc * 10 + charDigit c) a =
      l.foldl (fun acc d => acc * 10 + d) a := by
  induction l generalizing a with
  | nil => rfl
  | cons d l ih =>
      simp only [List.map_cons, List.foldl_cons,
        digitChar_val (hl d (List.mem_cons_self d l))]
      exact ih (fun x hx => hl x (List.mem_cons_of_mem _ hx)) _

theorem foldl_replicate_zero (k : Nat) :
    (List.replicate k '0').foldl (fun a c => a * 10 + charDigit c) 0 = 0 := by
  induction k with
  | zero => rfl
  | succ k ih => simpa [List.replicate_succ, charDigit] using ih

theorem digitsVal_padChars (w n : Nat) : digitsVal (padChars w n) = n := by
  unfold digitsVal padChars
  rw [List.foldl_append, foldl_replicate_zero,
    foldl_map_digitChar _ (fun d hd => natDigitsRev_lt n n d (List.mem_reverse.mp hd)),
    foldl_digits_eq]
  simp [ofDigits_natDigitsRev n n le_rfl]

theorem padChars_isEmpty_false (w n : Nat) (hw : 0 < w) :
    (padChars w n).isEmpty = false := by
  have hlen : (padChars w n).length =
      (w - (natDigitsRev n n).length) + (natDigitsRev n n).length := by
    simp [padChars]
  cases h : padChars w n with
  | nil => rw [h] at hlen; simp at hlen; omega
  | cons c l => rfl

theorem readNatChars_padChars (w n : Nat) (hw : 0 < w) :
    readNatChars (padChars w n) = some n := by
  unfold readNatChars
  rw [padChars_isEmpty_false w n hw]
  have hall : (padChars w n).all Char.isDigit = true := by
    rw [List.all_eq_true]; exact fun c hc => padChars_digit hc
  rw [hall]
  simp [digitsVal_padChars]

/-- Split off the chunk before the first `'-'`; `none` when no dash occurs. -/
def splitAtDash (l : List Char) : Option (List Char × List Char) :=
  match l.dropWhile (fun c => c != '-') with
  | '-' :: r => some (l.takeWhile (fun c => c != '-'), r)
  | _ => none

theorem dropWhile_no_dash (r : List Char) :
    ∀ a, (∀ c ∈ a, (c != '-') = true) →
      (a ++ '-' :: r).dropWhile (fun c => c != '-') = '-' :: r := by
  intro a
  induction a with
  | nil => intro _; simp [List.dropWhile_cons]
  | cons c a ih =>
      intro ha
      have hc : (c != '-') = true := ha c (List.mem_cons_self c a)
      simp only [List.cons_append, List.dropWhile_cons, hc, if_true]
      exact ih (fun x hx => ha x (List.mem_cons_of_mem _ hx))

theorem takeWhile_no_dash (r : List Char) :
    ∀ a, (∀ c ∈ a, (c != '-') = true) →
      (a ++ '-' :: r).takeWhile (fun c => c != '-') = a := by
  intro a
  induction a with
  | nil => intro _; simp [List.takeWhile_cons]
  | cons c a ih =>
      intro ha
      have hc : (c != '-') = true := ha c (List.mem_cons_self c a)
      simp only [List.cons_append, List.takeWhile_cons, hc, if_true]
      rw [ih (fun x hx => ha x (List.mem_cons_of_mem _ hx))]

theorem splitAtDash_append (a r : List Char) (ha : ∀ c ∈ a, (c != '-') = true) :
    splitAtDash (a ++ '-' :: r) = some (a, r) := by
  unfold splitAtDash
  rw [dropWhile_no_dash r a ha, takeWhile_no_dash r a ha]
  rfl

theorem padChars_ne_dash {w n : Nat} : ∀ c ∈ padChars w n, (c != '-') = true := by
  intro c hc
  rw [bne_iff_ne]
  intro he
  subst he
  exact absurd (padChars_digit hc) (by decide)

/-- `date.isoformat()`: `YYYY-MM-DD` with zero padding. -/
def isoOfDate (dt : DateD) : String :=
  ⟨padChars 4 dt.year ++ '-' :: (padChars 2 dt.month ++ '-' :: padChars 2 dt.day)⟩

/-- The ISO-date reading performed by `pd.to_datetime(...).dt.date` on the
cached strings: digits-dash-digits-dash-digits, checked for calendar
validity (an unparseable or invalid date raises, which the caller turns
into a cache miss). -/
def parseIso (s : String) : Option DateD :=
  match splitAtDash s.data with
  | none => none
  | some (ys, rest) =>
    match splitAtDash rest with
    | none => none
    | some (ms, ds) =>
      match readNatChars ys, readNatChars ms, readNatChars ds with
      | some y, some m, some d =>
          if isValidDate ⟨y, m, d⟩ then some ⟨y, m, d⟩ else none
      | _, _, _ => none

theorem parseIso_isoOfDate (dt : DateD) (h : isValidDate dt = true) :
    parseIso (isoOfDate dt) = some dt := by
  have hdata : (isoOfDate dt).data =
      padChars 4 dt.year ++ '-' :: (padChars 2 dt.month ++ '-' :: padChars 2 dt.day) := rfl
  have he : (⟨dt.year, dt.month, dt.day⟩ : DateD) = dt := rfl
  unfold parseIso
  simp only [hdata, splitAtDash_append _ _ padChars_ne_dash,
    readNatChars_padChars 4 _ (by norm_num),
    readNatChars_padChars 2 _ (by norm_num), he, h]
  simp

/-- Split a character list at every occurrence of `sep`
(list-level `str.split`). -/
def splitOnChar (sep : Char) : List Char → List (List Char)
  | [] => [[]]
  | c :: r =>
    let rest := splitOnChar sep r
    if c == sep then [] :: rest
    else
      match rest with
      | [] => [[c]]
      | g :: gs => (c :: g) :: gs

/-- Strip leading and trailing whitespace, as `float()`/`pd.to_numeric`
do before parsing a numeric string. -/
def trimChars (l : List Char) : List Char :=
  ((l.dropWhile Char.isWhitespace).reverse.dropWhile Char.isWhitespace).reverse

/-- A parsed decimal number, kept as exact mantissa and decimal
exponent (value `mant / 10 ^ exp`).  Every numeric value in this
pipeline is parsed from a decimal string, so a Python float is modeled
exactly by the decimal it was parsed from; `Deci.toRat` gives its
numeric value.  (Kernel-level rational arithmetic does not reduce, so
the pipeline itself stays inside this executable representation.) -/
structure Deci where
  mant : Int
  exp : Nat
deriving DecidableEq, Repr

/-- Numeric value of a parsed decimal. -/
def Deci.toRat (x : Deci) : ℚ := (x.mant : ℚ) / (10 : ℚ) ^ x.exp

/-- Parse an unsigned decimal literal, `digits` or `digits.digits`
(either side may be empty, not both): the grammar accepted by
`float()`/`pd.to_numeric` on the data at hand (exponents, `inf`, `nan`
and underscore separators do not occur in this data and are omitted). -/
def parseRatSigned (sgn : Int) (l : List Char) : Option Deci :=
  match splitOnChar '.' l with
  | [ip] =>
      if !ip.isEmpty && ip.all Char.isDigit then
        some ⟨sgn * (digitsVal ip : Int), 0⟩
      else none
  | [ip, fp] =>
      if (!ip.isEmpty || !fp.isEmpty) && ip.all Char.isDigit && fp.all Char.isDigit then
        some ⟨sgn * ((digitsVal ip * 10 ^ fp.length + digitsVal fp : Nat) : Int), fp.length⟩
      else none
  | _ => none

/-- `pd.to_numeric(s, errors='coerce')` on a single string: strip outer
whitespace, take an optional sign, then the decimal grammar; anything
else coerces to missing (`none`). -/
def parseRat (s : String) : Option Deci :=
  match trimChars s.data with
  | '-' :: r => parseRatSigned (-1) r
  | '+' :: r => parseRatSigned 1 r
  | l => parseRatSigned 1 l

/-- One cell of a DataFrame: a raw string, a parsed number, a calendar
date, or the missing value (pandas `NaN`/`NaT`/`None`). -/
inductive Cell where
  | vStr (s : String)
  | vNum (q : Deci)
  | vDate (d : DateD)
  | vNone
deriving DecidableEq, Repr

/-- A pandas DataFrame: ordered column labels plus rows of cells
(row-major, as built from the spreadsheet grid). -/
structure Df where
  cols : List String
  rows : List (List Cell)
deriving DecidableEq, Repr

/-- Position of the first column with the given label
(`df.columns.get_loc`, the index used by `df[col]`). -/
def colIdx : List String → String → Option Nat
  | [], _ => none
  | x :: xs, c => if x = c then some 0 else (colIdx xs c).map (· + 1)

/-- Apply `f` to the cell at index `i` of a row, leaving the rest alone. -/
def modifyAt (f : Cell → Cell) : Nat → List Cell → List Cell
  | _, [] => []
  | 0, c :: r => f c :: r
  | i + 1, c :: r => c :: modifyAt f i r

/-- `df[col] = df[col].apply-or-chain(f)`: rewrite one column cell-wise;
a label not present leaves the frame unchanged. -/
def map_col (df : Df) (c : String) (f : Cell → Cell) : Df :=
  match colIdx df.cols c with
  | some i => ⟨df.cols, df.rows.map (modifyAt f i)⟩
  | none => df

/-- `NUMERIC_COLUMNS` (source line 25): the declared measure columns. -/
def NUMERIC_COLUMNS : List String :=
  ["руки", "RB%_PLAYER", "Rake_USD_PLAYER", "RB_USD_PLAYER",
   "Win_USD_PLAYER", "Profit_PLAYER"]

/-- The effective `_process_numeric_columns` cell chain (source lines
448-452): `.replace('', nan)`, `.str.replace('\xa0', '')`,
`.str.replace(',', '.')`, `pd.to_numeric(errors='coerce')`.  A non-string
cell is turned into `NaN` by the `.str` accessor and stays `NaN` through
`to_numeric`.  Note: unlike the shadowed first definition, there is no
`.replace('-', nan)` and no `.str.replace(' ', '')` here. -/
def normalize_cell : Cell → Cell
  | .vStr s =>
      if s = "" then .vNone
      else
        let s1 : List Char := s.data.filter (fun ch => ch != '\xa0')
        let s2 : List Char := s1.map (fun ch => if ch == ',' then '.' else ch)
        match parseRat ⟨s2⟩ with
        | some q => .vNum q
        | none => .vNone
  | _ => .vNone

/-- The shadowed first `_process_numeric_columns` cell chain (source
lines 233-239): additionally replaces the sentinel `'-'` by `NaN` and
strips ordinary spaces before parsing. -/
def normalize_cell_v1 : Cell → Cell
  | .vStr s =>
      if s = "" ∨ s = "-" then .vNone
      else
        let s1 : List Char := s.data.filter (fun ch => ch != '\xa0')
        let s2 : List Char := s1.map (fun ch => if ch == ',' then '.' else ch)
        let s3 : List Char := s2.filter (fun ch => ch != ' ')
        match parseRat ⟨s3⟩ with
        | some q => .vNum q
        | none => .vNone
  | _ => .vNone

/-- The numeric-column loop of the effective `_process_numeric_columns`
(source lines 446-452): for each declared measure column present in the
frame, rewrite it with `normalize_cell`. -/
def apply_numeric (df : Df) : Df :=
  NUMERIC_COLUMNS.foldl (fun d col => map_col d col normalize_cell) df

/-- Per-row effect of processing one declared column. -/
def stepRow (cols : List String) (r : List Cell) (col : String) : List Cell :=
  match colIdx cols col with
  | some i => modifyAt normalize_cell i r
  | none => r

/-- Per-row effect of the whole numeric-column loop. -/
def row_transform (cols : List String) (r : List Cell) : List Cell :=
  NUMERIC_COLUMNS.foldl (stepRow cols) r

/-- The effective `_process_numeric_columns` (source lines 442-458):
normalize the declared measure columns, then drop rows whose coach cell
is the exact string `"0"`.  When the frame has no `Тренер` column the
row lookup raises `KeyError`, the `except` branch catches it and returns
the frame as already modified by the loop - so the filter is skipped and
no rows are dropped. -/
def process_numeric_columns (df : Df) : Df :=
  let d2 := apply_numeric df
  match colIdx d2.cols "Тренер" with
  | some i =>
      ⟨d2.cols, d2.rows.filter (fun r => decide (r.getD i Cell.vNone ≠ Cell.vStr "0"))⟩
  | none => d2

/-- The primary date format `%d.%m.%Y` of the effective `_format_date`
(source line 392): day and month of one or two digits, a four-digit
year, checked for calendar validity (an invalid combination raises and
falls through to the generic parse). -/
def parseDMY (s : String) : Option DateD :=
  match splitOnChar '.' s.data with
  | [ds, ms, ys] =>
      match readNatChars ds, readNatChars ms, readNatChars ys with
      | some d, some m, some y =>
          if ds.length ≤ 2 && ms.length ≤ 2 && ys.length == 4 && isValidDate ⟨y, m, d⟩ then
            some ⟨y, m, d⟩
          else none
      | _, _, _ => none
  | _ => none

/-- The effective `_format_date` (source lines 389-398): try the primary
`%d.%m.%Y` parse, then a generic fallback parse (the locale- and
format-guessing `pd.to_datetime`, taken as a parameter `fb` of the
embedding), and return missing when both fail.  A cell that is already a
date passes through; a missing cell stays missing.  Grid cells coming
from the spreadsheet are always strings. -/
def format_date (fb : String → Option DateD) : Cell → Cell
  | .vStr s =>
      match parseDMY s with
      | some dt => .vDate dt
      | none =>
          match fb s with
          | some dt => .vDate dt
          | none => .vNone
  | .vDate dt => .vDate dt
  | _ => .vNone

/-- Required columns of `_validate_dataframe` (source line 299). -/
def required_columns : List String :=
  ["Тренер", "nickname", "club_name"] ++ NUMERIC_COLUMNS

/-- Missing-value test (`isna`). -/
def isNA : Cell → Bool
  | .vNone => true
  | _ => false

/-- `_validate_dataframe` (source lines 286-310): reject an empty frame,
a frame missing a required column, or a frame whose first (date) column
is entirely missing.  Defined once in the class and never called by the
effective `load_data`. -/
def _validate_dataframe (df : Df) : Bool :=
  if df.rows.isEmpty || df.cols.isEmpty then false
  else if !(required_columns.all (fun c => df.cols.contains c)) then false
  else !(df.rows.all (fun r => isNA (r.getD 0 Cell.vNone)))

/-- A persisted cache entry: `{'timestamp': ..., 'data': to_json(df)}`
(source lines 68-71).  The JSON round trip `to_json`/`read_json`
(orient='split') preserves column labels, row order, strings, numbers
and nulls, so the frame is stored structurally. -/
structure CacheEntry where
  timestamp : Nat
  frame : Df
deriving DecidableEq, Repr

/-- State of the cache file on disk: absent, a well-formed entry, or
bytes that fail `json.load`/`read_json` (any exception while reading is
caught and treated as a miss). -/
inductive CacheFile where
  | good (e : CacheEntry)
  | corrupt
deriving DecidableEq, Repr

/-- The per-cell date serialization of `save_to_cache` (source lines
64-66): `x.isoformat() if isinstance(x, date) else None`, applied to the
first column. -/
def serialize_date_cell : Cell → Cell
  | .vDate dt => .vStr (isoOfDate dt)
  | _ => .vNone

/-- `DataCache.save_to_cache` (source lines 52-80): copy the frame, turn
the first column's dates into ISO strings (anything else into `None`),
and persist it with the current timestamp.  On a frame with no columns
`data_copy.columns[0]` raises; the handler logs and re-raises, so the
failure propagates (`PersistFailure`). -/
def save_to_cache (now : Nat) (data : Df) : Except String CacheEntry :=
  match data.cols with
  | [] => .error "no columns"
  | _ :: _ => .ok ⟨now, ⟨data.cols, data.rows.map (modifyAt serialize_date_cell 0)⟩⟩

/-- The per-cell inverse conversion of `load_from_cache` (source line
109): `pd.to_datetime(df[date_column]).dt.date`.  An ISO string becomes
a date (an unparseable one raises, surfacing as `none`), a null stays
missing (`NaT` is modeled as the missing value), a date passes through.
A numeric cell cannot occur in the first column of a saved entry and is
treated as a conversion failure. -/
def deserialize_date_cell : Cell → Option Cell
  | .vStr s => (parseIso s).map .vDate
  | .vNone => some Cell.vNone
  | .vDate dt => some (.vDate dt)
  | .vNum _ => none

/-- Convert the first cell of one row back from its stored form. -/
def deserialize_row : List Cell → Option (List Cell)
  | [] => some []
  | c :: rest => (deserialize_date_cell c).map (· :: rest)

/-- Column-wise conversion: `pd.to_datetime` fails the whole column if
any cell fails. -/
def deserialize_rows : List (List Cell) → Option (List (List Cell))
  | [] => some []
  | r :: rs =>
    match deserialize_row r, deserialize_rows rs with
    | some r2, some rs2 => some (r2 :: rs2)
    | _, _ => none

/-- `DataCache.load_from_cache` (source lines 82-116): return `None`
when the file is absent; any exception while reading or converting is
caught and returns `None`; an entry older than `timedelta(days=1)`
(86400 seconds) returns `None`; otherwise rebuild the frame and convert
the first column back to dates. -/
def load_from_cache (now : Nat) (store : Option CacheFile) : Option Df :=
  match store with
  | none => none
  | some CacheFile.corrupt => none
  | some (CacheFile.good e) =>
    if 86400 < now - e.timestamp then none
    else
      match e.frame.cols with
      | [] => none
      | _ :: _ =>
        match deserialize_rows e.frame.rows with
        | some rs => some ⟨e.frame.cols, rs⟩
        | none => none

/-- Width of the widest data row, the column count that
`pd.DataFrame(values[1:], ...)` infers from a nested list. -/
def maxWidth (rows : List (List String)) : Nat :=
  rows.foldl (fun a r => max a r.length) 0

/-- One data row as `pd.DataFrame` stores it: string cells, right-padded
with `NaN` up to the inferred width `w`. -/
def padRow (w : Nat) (r : List String) : List Cell :=
  r.map Cell.vStr ++ List.replicate (w - r.length) Cell.vNone

/-- The live-fetch branch of the effective `load_data` (source lines
414-435): `fetch` is the grid returned by the Sheets API (`none` models
a network/API exception, which the handler turns into `None`).  An empty
grid returns `None`.  `pd.DataFrame(values[1:], columns=values[0])` pads
ragged data rows with `NaN` up to the widest row's width, and raises
`ValueError` when that width differs from the header's length (caught by
the handler, so `None`); with an empty header either the construction or
the subsequent `df.columns[0]` raises, again `None`.  Otherwise the
first row becomes the column labels, the first column is date-formatted,
and the numeric columns are processed.  The result is returned as is -
the effective `load_data` neither drops date-less rows nor calls
`_validate_dataframe`.  (It also writes the result to the cache; the
claims below concern the returned value, so the write is not modeled
here.) -/
def fetch_path (fb : String → Option DateD) (fetch : Option (List (List String))) :
    Option Df :=
  match fetch with
  | none => none
  | some values =>
    match values with
    | [] => none
    | header :: dataRows =>
      if header.isEmpty then none
      else if !dataRows.isEmpty && maxWidth dataRows != header.length then none
      else
        some (process_numeric_columns
          (map_col ⟨header, dataRows.map (padRow header.length)⟩
            (header.headD "") (format_date fb)))

/-- The effective `DataLoader.load_data` (source lines 400-440): unless
`force_reload` is set, try the cache and return a hit unchanged (and
unvalidated); otherwise, or on a miss, take the live-fetch branch. -/
def load_data (fb : String → Option DateD) (force_reload : Bool) (now : Nat)
    (store : Option CacheFile) (fetch : Option (List (List String))) : Option Df :=
  match force_reload with
  | true => fetch_path fb fetch
  | false =>
    match load_from_cache now store with
    | some t => some t
    | none => fetch_path fb fetch

/-- A fallback date parser that always fails, used as the concrete
generic-parse instance in the evaluations below. -/
def fbNone : String → Option DateD := fun _ => none

theorem colIdx_getD {cols : List String} {c : String} {i : Nat}
    (h : colIdx cols c = some i) : cols.getD i "" = c := by
  induction cols generalizing i with
  | nil => simp [colIdx] at h
  | cons x xs ih =>
      unfold colIdx at h
      by_cases hx : x = c
      · rw [if_pos hx] at h
        injection h with h
        subst h
        simpa using hx
      · rw [if_neg hx] at h
        cases hj : colIdx xs c with
        | none => rw [hj] at h; simp at h
        | some j =>
            rw [hj] at h
            simp only [Option.map_some'] at h
            injection h with h
            subst h
            simpa using ih hj

theorem colIdx_eq_none {cols : List String} {c : String} (h : c ∉ cols) :
    colIdx cols c = none := by
  induction cols with
  | nil => rfl
  | cons x xs ih =>
      have hx : ¬x = c := fun e => h (e ▸ List.mem_cons_self x xs)
      have hxs : c ∉ xs := fun e => h (List.mem_cons_of_mem _ e)
      simp [colIdx, hx, ih hxs]

theorem modifyAt_getD_ne (f : Cell → Cell) {i j : Nat} (hne : j ≠ i) :
    ∀ r, (modifyAt f i r).getD j Cell.vNone = r.getD j Cell.vNone := by
  intro r
  induction r generalizing i j with
  | nil => cases i <;> rfl
  | cons c r ih =>
      cases i with
      | zero =>
          cases j with
          | zero => exact absurd rfl hne
          | succ k => simp [modifyAt, List.getD_cons_succ]
      | succ i2 =>
          cases j with
          | zero => simp [modifyAt]
          | succ k =>
              simp only [modifyAt, List.getD_cons_succ]
              exact ih (by omega)

theorem map_col_eq (d : Df) (col : String) :
    map_col d col normalize_cell = ⟨d.cols, d.rows.map (fun r => stepRow d.cols r col)⟩ := by
  unfold map_col stepRow
  cases h : colIdx d.cols col with
  | some i => simp [h]
  | none => simp [h]

theorem apply_numeric_spec (L : List String) :
    ∀ d : Df, L.foldl (fun d col => map_col d col normalize_cell) d =
      ⟨d.cols, d.rows.map (fun r => L.foldl (stepRow d.cols) r)⟩ := by
  induction L with
  | nil => intro d; simp
  | cons c L ih =>
      intro d
      rw [List.foldl_cons, map_col_eq, ih]
      simp [List.map_map, Function.comp, List.foldl_cons]

theorem apply_numeric_eq (df : Df) :
    apply_numeric df = ⟨df.cols, df.rows.map (row_transform df.cols)⟩ :=
  apply_numeric_spec NUMERIC_COLUMNS df

theorem apply_numeric_cols (df : Df) : (apply_numeric df).cols = df.cols := by
  rw [apply_numeric_eq]

theorem apply_numeric_rows (df : Df) :
    (apply_numeric df).rows = df.rows.map (row_transform df.cols) := by
  rw [apply_numeric_eq]

theorem foldl_stepRow_getD (cols : List String) (j : Nat)
    (hj : cols.getD j "" ∉ NUMERIC_COLUMNS) :
    ∀ (L : List String), (∀ c ∈ L, c ∈ NUMERIC_COLUMNS) → ∀ r,
      (L.foldl (stepRow cols) r).getD j Cell.vNone = r.getD j Cell.vNone := by
  intro L
  induction L with
  | nil => intro _ r; rfl
  | cons c L ih =>
      intro hL r
      rw [List.foldl_cons, ih (fun x hx => hL x (List.mem_cons_of_mem _ hx))]
      unfold stepRow
      cases hc : colIdx cols c with
      | none => rfl
      | some i =>
          have hname : cols.getD i "" = c := colIdx_getD hc
          have hij : j ≠ i := by
            intro e
            exact hj (by rw [e, hname]; exact hL c (List.mem_cons_self c L))
          exact modifyAt_getD_ne _ hij r

theorem row_transform_getD (cols : List String) (r : List Cell) (j : Nat)
    (hj : cols.getD j "" ∉ NUMERIC_COLUMNS) :
    (row_transform cols r).getD j Cell.vNone = r.getD j Cell.vNone :=
  foldl_stepRow_getD cols j hj NUMERIC_COLUMNS (fun _ h => h) r

theorem map_col_nil_rows (cols : List String) (c : String) (f : Cell → Cell) :
    map_col ⟨cols, []⟩ c f = ⟨cols, []⟩ := by
  unfold map_col
  cases h : colIdx cols c <;> simp [h]

theorem process_numeric_nil_rows (cols : List String) :
    process_numeric_columns ⟨cols, []⟩ = ⟨cols, []⟩ := by
  have ha : apply_numeric ⟨cols, []⟩ = ⟨cols, []⟩ := by
    simp [apply_numeric_eq]
  simp only [process_numeric_columns, ha]
  cases h2 : colIdx cols "Тренер" <;> simp [h2]

/-- Admissible first-column (date) cell of a table about to be cached:
a calendar-valid date or missing. -/
def wellformed_first_cell : Cell → Bool
  | .vDate dt => isValidDate dt
  | .vNone => true
  | _ => false

/-- Cell kinds outside the date column that the `to_json`/`read_json`
round trip stores verbatim (strings, numbers, nulls); a date object in a
non-date column would be stringified and is excluded. -/
def serializable_cell : Cell → Bool
  | .vDate _ => false
  | _ => true

/-- A table as produced by the ingestion pipeline, from the cache's
point of view: at least one column, and every row nonempty with a
valid-or-missing date first and JSON-stable cells after it. -/
def wellformed_table (T : Df) : Bool :=
  !T.cols.isEmpty && T.rows.all (fun r =>
    match r with
    | [] => false
    | c :: rest => wellformed_first_cell c && rest.all serializable_cell)

theorem deserialize_serialize_row (c : Cell) (rest : List Cell)
    (hc : wellformed_first_cell c = true) :
    deserialize_row (modifyAt serialize_date_cell 0 (c :: rest)) = some (c :: rest) := by
  cases c with
  | vDate dt =>
      have hv : isValidDate dt = true := hc
      simp [modifyAt, serialize_date_cell, deserialize_row, deserialize_date_cell,
        parseIso_isoOfDate dt hv]
  | vNone => simp [modifyAt, serialize_date_cell, deserialize_row, deserialize_date_cell]
  | vStr s => exact absurd hc (by simp [wellformed_first_cell])
  | vNum q => exact absurd hc (by simp [wellformed_first_cell])

theorem deserialize_serialize_rows (rows : List (List Cell))
    (h : ∀ r ∈ rows, deserialize_row (modifyAt serialize_date_cell 0 r) = some r) :
    deserialize_rows (rows.map (modifyAt serialize_date_cell 0)) = some rows := by
  induction rows with
  | nil => rfl
  | cons r rs ih =>
      simp only [List.map_cons, deserialize_rows]
      rw [h r (List.mem_cons_self r rs), ih (fun x hx => h x (List.mem_cons_of_mem _ hx))]

/-- C5: for every well-formed Table `T`, `save_to_cache` at time `tS`
followed by `load_from_cache` at time `tL` with less than 24 hours
(86400 seconds) elapsed returns exactly `T`: same rows in the same
order, same column labels, same cell values. -/
theorem cache_roundtrip (T : Df) (tS tL : Nat) (e : CacheEntry)
    (hwf : wellformed_table T = true) (hfresh : tL - tS < 86400)
    (hsave : save_to_cache tS T = Except.ok e) :
    load_from_cache tL (some (CacheFile.good e)) = some T := by
  unfold wellformed_table at hwf
  rw [Bool.and_eq_true] at hwf
  obtain ⟨hne, hall⟩ := hwf
  have hrows : ∀ r ∈ T.rows, deserialize_row (modifyAt serialize_date_cell 0 r) = some r := by
    intro r hr
    have hb := List.all_eq_true.mp hall r hr
    cases r with
    | nil => exact absurd hb (by simp)
    | cons c rest =>
        simp only [Bool.and_eq_true] at hb
        exact deserialize_serialize_row c rest hb.1
  cases hcols : T.cols with
  | nil => rw [hcols] at hne; exact absurd hne (by simp)
  | cons c0 cs =>
      unfold save_to_cache at hsave
      rw [hcols] at hsave
      injection hsave with hsave
      subst hsave
      simp only [load_from_cache]
      rw [if_neg (show ¬86400 < tL - tS by omega)]
      simp only [deserialize_serialize_rows T.rows hrows]
      rw [← hcols]

/-- C5: for every well-formed table, `save` followed immediately by
`load` within the 24-hour freshness window returns a table equal to the
one saved - instantiated at a concrete one-row table. -/
theorem cache_roundtrip_w :
    load_from_cache 0 (some (CacheFile.good ⟨0, ⟨["Date", "руки"],
        [[Cell.vStr "2024-03-01", Cell.vNum ⟨5, 0⟩]]⟩⟩))
      = some ⟨["Date", "руки"], [[Cell.vDate ⟨2024, 3, 1⟩, Cell.vNum ⟨5, 0⟩]]⟩ :=
  cache_roundtrip ⟨["Date", "руки"], [[Cell.vDate ⟨2024, 3, 1⟩, Cell.vNum ⟨5, 0⟩]]⟩ 0 0
    ⟨0, ⟨["Date", "руки"], [[Cell.vStr "2024-03-01", Cell.vNum ⟨5, 0⟩]]⟩⟩
    (by decide) (by decide) rfl

/-- C6: `load_from_cache` returns `None` (never an error) when no
persisted entry exists, when reading the entry fails, and when the
entry's age exceeds the 24-hour freshness window even though the entry
itself is well-formed. -/
theorem load_from_cache_miss :
    (∀ now : Nat, load_from_cache now none = none) ∧
    (∀ now : Nat, load_from_cache now (some CacheFile.corrupt) = none) ∧
    (∀ (now : Nat) (e : CacheEntry), 86400 < now - e.timestamp →
        load_from_cache now (some (CacheFile.good e)) = none) := by
  refine ⟨fun _ => rfl, fun _ => rfl, fun now e h => ?_⟩
  simp only [load_from_cache]
  rw [if_pos h]

/-- C6 witness: a well-formed entry saved at time 0 and read at time
100000 (more than 24 hours later) is a miss, as is an absent file. -/
theorem load_from_cache_miss_w :
    load_from_cache 5 none = none ∧
      load_from_cache 100000 (some (CacheFile.good ⟨0, ⟨["Date"], []⟩⟩)) = none :=
  ⟨load_from_cache_miss.1 5,
   load_from_cache_miss.2.2 100000 ⟨0, ⟨["Date"], []⟩⟩ (by decide)⟩

/-- C7: when the frame has a coach column, every row of the output of
`_process_numeric_columns` has a coach cell different from the literal
string "0" - i.e. every input row whose coach value is exactly "0" is
absent from the output, regardless of its other fields. -/
theorem coach_rows_filtered (df : Df) (i : Nat)
    (hi : colIdx df.cols "Тренер" = some i) (r : List Cell)
    (hr : r ∈ (process_numeric_columns df).rows) :
    r.getD i Cell.vNone ≠ Cell.vStr "0" := by
  have hc : colIdx (apply_numeric df).cols "Тренер" = some i := by
    rw [apply_numeric_cols]; exact hi
  simp only [process_numeric_columns] at hr
  rw [hc] at hr
  simp only [List.mem_filter] at hr
  exact of_decide_eq_true hr.2

/-- C7 witness: in a one-column frame with coach "A" the surviving row's
coach cell is not "0". -/
theorem coach_rows_filtered_w :
    ([Cell.vStr "A"] : List Cell).getD 0 Cell.vNone ≠ Cell.vStr "0" :=
  coach_rows_filtered ⟨["Тренер"], [[Cell.vStr "A"]]⟩ 0 (by decide)
    [Cell.vStr "A"] (by decide)

/-- C8: with `force_reload=True` the effective `load_data` is exactly
the live-fetch branch, for every cache state and every clock value: the
cache entry is never read and its freshness is never consulted. -/
theorem load_data_force_reload_ignores_cache (fb : String → Option DateD) (now : Nat)
    (store : Option CacheFile) (fetch : Option (List (List String))) :
    load_data fb true now store fetch = fetch_path fb fetch := rfl

/-- C9: the numeric-normalization step is frame-bounded - every row of
the output of `_process_numeric_columns` comes from an input row and
agrees with it on every column whose label is not in `NUMERIC_COLUMNS`
(so date, coach, player, club and undeclared columns are unchanged). -/
theorem numeric_frame_effect (df : Df) (r2 : List Cell)
    (h : r2 ∈ (process_numeric_columns df).rows) :
    ∃ r ∈ df.rows, ∀ j, df.cols.getD j "" ∉ NUMERIC_COLUMNS →
      r2.getD j Cell.vNone = r.getD j Cell.vNone := by
  have h2 : r2 ∈ (apply_numeric df).rows := by
    simp only [process_numeric_columns] at h
    cases hc : colIdx (apply_numeric df).cols "Тренер" with
    | some i =>
        rw [hc] at h
        simp only [List.mem_filter] at h
        exact h.1
    | none => rw [hc] at h; exact h
  rw [apply_numeric_rows] at h2
  obtain ⟨r, hr, rfl⟩ := List.mem_map.mp h2
  exact ⟨r, hr, fun j hj => row_transform_getD df.cols r j hj⟩

/-- C9 witness: in a frame with a date column and one measure column,
the output row agrees with the input row outside the measure column. -/
theorem numeric_frame_effect_w :
    ∃ r ∈ (⟨["Date", "руки"], [[Cell.vStr "x", Cell.vStr "5"]]⟩ : Df).rows,
      ∀ j, (⟨["Date", "руки"], [[Cell.vStr "x", Cell.vStr "5"]]⟩ : Df).cols.getD j "" ∉ NUMERIC_COLUMNS →
        ([Cell.vStr "x", Cell.vNum ⟨5, 0⟩] : List Cell).getD j Cell.vNone = r.getD j Cell.vNone :=
  numeric_frame_effect ⟨["Date", "руки"], [[Cell.vStr "x", Cell.vStr "5"]]⟩
    [Cell.vStr "x", Cell.vNum ⟨5, 0⟩] (by decide)

/-- C10: on a frame with no coach column, `_process_numeric_columns`
returns normally (the `KeyError` is caught): the result is exactly the
numeric-normalization of the declared columns, with no rows removed. -/
theorem process_numeric_no_coach (df : Df) (h : "Тренер" ∉ df.cols) :
    process_numeric_columns df = apply_numeric df ∧
      (process_numeric_columns df).rows.length = df.rows.length := by
  have hc : colIdx (apply_numeric df).cols "Тренер" = none := by
    rw [apply_numeric_cols]; exact colIdx_eq_none h
  have h1 : process_numeric_columns df = apply_numeric df := by
    simp only [process_numeric_columns]
    rw [hc]
  exact ⟨h1, by rw [h1, apply_numeric_rows, List.length_map]⟩

/-- C10 witness: a frame with only a date column is returned with its
single row intact. -/
theorem process_numeric_no_coach_w :
    process_numeric_columns (⟨["Date"], [[Cell.vStr "x"]]⟩ : Df)
        = apply_numeric ⟨["Date"], [[Cell.vStr "x"]]⟩ ∧
      (process_numeric_columns (⟨["Date"], [[Cell.vStr "x"]]⟩ : Df)).rows.length
        = (⟨["Date"], [[Cell.vStr "x"]]⟩ : Df).rows.length :=
  process_numeric_no_coach ⟨["Date"], [[Cell.vStr "x"]]⟩ (by decide)

/-- C1: the effective `load_data` returns tables that fail
`_validate_dataframe` on both of its paths.  First conjunct: a fresh
cache entry whose table lacks the required `nickname`, `club_name` and
measure columns is returned as is by `load_data(force_reload=False)`.
Second conjunct: the live-fetch path returns the column-deficient table
built from the grid, again without validation.  Third conjunct: the
returned table indeed fails the (never-called) validation check. -/
theorem load_data_skips_validation :
    load_data fbNone false 0
        (some (CacheFile.good ⟨0, ⟨["Date", "Тренер"],
          [[Cell.vStr "2024-03-01", Cell.vStr "A"]]⟩⟩)) none
      = some ⟨["Date", "Тренер"], [[Cell.vDate ⟨2024, 3, 1⟩, Cell.vStr "A"]]⟩
    ∧ load_data fbNone true 0 none (some [["Date", "Тренер"], ["01.03.2024", "A"]])
      = some ⟨["Date", "Тренер"], [[Cell.vDate ⟨2024, 3, 1⟩, Cell.vStr "A"]]⟩
    ∧ _validate_dataframe ⟨["Date", "Тренер"], [[Cell.vDate ⟨2024, 3, 1⟩, Cell.vStr "A"]]⟩
      = false :=
  ⟨by decide, by decide, by decide⟩

/-- C2: the effective `_process_numeric_columns` does not strip ordinary
spaces (thousands separators), so `"1 234,50"` in a declared measure
column becomes missing instead of the numeric value 1234.50; the
shadowed first version of the method (which also strips `' '`) produces
exactly 1234.50, as the claim describes. -/
theorem numeric_space_divergence :
    process_numeric_columns ⟨["руки", "Тренер"], [[Cell.vStr "1 234,50", Cell.vStr "A"]]⟩
      = ⟨["руки", "Тренер"], [[Cell.vNone, Cell.vStr "A"]]⟩
    ∧ normalize_cell_v1 (Cell.vStr "1 234,50") = Cell.vNum ⟨123450, 2⟩
    ∧ Deci.toRat ⟨123450, 2⟩ = 2469 / 2 := by
  refine ⟨by decide, by decide, ?_⟩
  norm_num [Deci.toRat]

/-- C3: the effective `load_data` has no `dropna` step, so a row whose
date string fails both the primary `%d.%m.%Y` parse and the generic
fallback parse stays in the returned table with a missing date, instead
of being dropped. -/
theorem dateless_rows_retained :
    fetch_path fbNone
      (some [["Date", "Тренер", "nickname", "club_name", "руки", "RB%_PLAYER",
              "Rake_USD_PLAYER", "RB_USD_PLAYER", "Win_USD_PLAYER", "Profit_PLAYER"],
             ["invalid", "CoachB", "Ann", "ClubY", "50", "1", "2", "3", "4", "5"]])
    = some ⟨["Date", "Тренер", "nickname", "club_name", "руки", "RB%_PLAYER",
             "Rake_USD_PLAYER", "RB_USD_PLAYER", "Win_USD_PLAYER", "Profit_PLAYER"],
            [[Cell.vNone, Cell.vStr "CoachB", Cell.vStr "Ann", Cell.vStr "ClubY",
              Cell.vNum ⟨50, 0⟩, Cell.vNum ⟨1, 0⟩, Cell.vNum ⟨2, 0⟩, Cell.vNum ⟨3, 0⟩,
              Cell.vNum ⟨4, 0⟩, Cell.vNum ⟨5, 0⟩]]⟩ := by decide

/-- C4 counterexample: a grid consisting of only a header row does not
make the fetch fail - the effective `load_data` checks `if not values`
(zero rows in total), so the header-only grid yields an empty table. -/
theorem fetch_header_only_not_failure :
    fetch_path fbNone (some [["Date", "Тренер", "nickname", "club_name", "руки",
        "RB%_PLAYER", "Rake_USD_PLAYER", "RB_USD_PLAYER", "Win_USD_PLAYER", "Profit_PLAYER"]])
      = some ⟨["Date", "Тренер", "nickname", "club_name", "руки", "RB%_PLAYER",
          "Rake_USD_PLAYER", "RB_USD_PLAYER", "Win_USD_PLAYER", "Profit_PLAYER"], []⟩
    ∧ fetch_path fbNone (some [["Date", "Тренер", "nickname", "club_name", "руки",
        "RB%_PLAYER", "Rake_USD_PLAYER", "RB_USD_PLAYER", "Win_USD_PLAYER", "Profit_PLAYER"]])
      ≠ none :=
  ⟨by decide, by decide⟩

/-- C4 (amended): the fetch's empty-source failure triggers when the
retrieved grid has no rows at all (the code checks `if not values`), not
when it merely has zero data rows: a grid consisting of only a nonempty
header row does not fail and instead yields a table with zero data
rows. -/
theorem fetch_empty_grid_behavior :
    (∀ fb : String → Option DateD, fetch_path fb (some []) = none) ∧
    (∀ (fb : String → Option DateD) (hdr : List String), hdr ≠ [] →
        fetch_path fb (some [hdr]) = some ⟨hdr, []⟩) := by
  constructor
  · intro fb; rfl
  · intro fb hdr hne
    cases hdr with
    | nil => exact absurd rfl hne
    | cons c cs => simp [fetch_path, maxWidth, map_col_nil_rows, process_numeric_nil_rows]

/-- C4 witness: the amended behavior at a concrete one-column header. -/
theorem fetch_empty_grid_behavior_w :
    fetch_path fbNone (some [["Date"]]) = some ⟨["Date"], []⟩ :=
  fetch_empty_grid_behavior.2 fbNone ["Date"] (by decide)
